import Mathlib

/-!
Shallow embedding of the message-board GraphQL server (`server.js`):
the SQLite tables are lists of rows in insertion order, the in-memory
`rateLimitStore` JS `Map` is an association list, timestamps are integers
(milliseconds, as produced by `Date.now()`; a message's ISO `creationDate`
string is modelled by the same instant, since ISO-8601 strings compare
lexicographically exactly as their instants compare), and a thrown
`Error(message)` is modelled by `Except.error message`.  Each resolver
takes the fresh uuid and the current time as explicit arguments.
-/

/-- A row of the `users` table. -/
structure User where
  id : String
  name : String
  email : String
  creationDate : Int
deriving Repr, DecidableEq

/-- A row of the `messages` table. -/
structure Message where
  id : String
  userId : String
  body : String
  creationDate : Int
deriving Repr, DecidableEq

/-- The relational store: both tables, rows kept in insertion order
(SQLite returns rows in rowid order for these queries). -/
structure DB where
  users : List User
  messages : List Message
deriving Repr, DecidableEq

/-- The type of the `rateLimitStore` JS `Map`: user id to list of
timestamps of recent successful posts, entries in insertion order. -/
abbrev RateStore := List (String × List Int)

/-- JS `Map.prototype.get`: the value stored under `k`, if any. -/
def mapGet (m : RateStore) (k : String) : Option (List Int) :=
  (m.find? (fun p => p.1 == k)).map (fun p => p.2)

/-- JS `Map.prototype.set`: replace the binding of `k` in place if present,
otherwise append a new binding. -/
def mapSet (m : RateStore) (k : String) (v : List Int) : RateStore :=
  if m.any (fun p => p.1 == k) then
    m.map (fun p => if p.1 == k then (k, v) else p)
  else
    m ++ [(k, v)]

/-- The whole mutable state of the server process: the database plus the
process-wide `rateLimitStore`. -/
structure ServerState where
  db : DB
  rateLimitStore : RateStore
deriving Repr, DecidableEq

/-- The state of a freshly started server: empty tables, empty map. -/
def initialState : ServerState := { db := { users := [], messages := [] }, rateLimitStore := [] }

/-- The `Mutation.createUser` resolver from `server.js`: duplicate-email check
(`SELECT id FROM users WHERE email = ?`), then `INSERT`.  `newId` is the
generated uuid and `now` the creation instant. -/
def createUser (st : ServerState) (name email newId : String) (now : Int) :
    ServerState × Except String User :=
  if st.db.users.any (fun u => u.email == email) then
    (st, .error "A user with this email already exists.")
  else
    let newUser : User := { id := newId, name := name, email := email, creationDate := now }
    ({ st with db := { st.db with users := st.db.users ++ [newUser] } }, .ok newUser)

/-- The `Mutation.postMessage` resolver from `server.js`: user-existence check, then the
sliding-window rate-limit check (filter to `ts > now - 60*60*1000`, deny at
10), then the message `INSERT` followed by recording `now` in the store. -/
def postMessage (st : ServerState) (userId messageBody newId : String) (now : Int) :
    ServerState × Except String Message :=
  if st.db.users.any (fun u => u.id == userId) then
    let oneHourAgo : Int := now - 60 * 60 * 1000
    let userTimestamps : List Int := (mapGet st.rateLimitStore userId).getD []
    let recentTimestamps : List Int := userTimestamps.filter (fun ts => decide (ts > oneHourAgo))
    if 10 ≤ recentTimestamps.length then
      (st, .error "Rate limit exceeded. You can post a maximum of 10 messages per hour.")
    else
      let newMessage : Message :=
        { id := newId, userId := userId, body := messageBody, creationDate := now }
      ({ db := { st.db with messages := st.db.messages ++ [newMessage] },
         rateLimitStore := mapSet st.rateLimitStore userId (recentTimestamps ++ [now]) },
       .ok newMessage)
  else
    (st, .error "User not found. Cannot post message.")

/-- The `Query.listUsers` resolver: `SELECT * FROM users`. -/
def listUsers (st : ServerState) : List User := st.db.users

/-- The `Query.listMessagesForUser` resolver: user-existence check, then
`SELECT * FROM messages WHERE userId = ?`. -/
def listMessagesForUser (st : ServerState) (userId : String) : Except String (List Message) :=
  if st.db.users.any (fun u => u.id == userId) then
    .ok (st.db.messages.filter (fun m => m.userId == userId))
  else
    .error "User not found."

/-- Insert a message into a list already ordered by `creationDate`
ascending, before any row with a later-or-equal date. -/
def insertByDate (m : Message) : List Message → List Message
  | [] => [m]
  | x :: xs =>
    if m.creationDate ≤ x.creationDate then m :: x :: xs
    else x :: insertByDate m xs

/-- The `ORDER BY creationDate ASC` clause as an insertion sort (SQLite's relative
order of rows with equal keys is unspecified, so any deterministic
date-ascending order is a faithful model). -/
def orderByDate : List Message → List Message
  | [] => []
  | x :: xs => insertByDate x (orderByDate xs)

/-- The query `SELECT * FROM messages WHERE userId = ? ORDER BY creationDate ASC`,
as issued by both sibling resolvers. -/
def userMessagesOrdered (msgs : List Message) (userId : String) : List Message :=
  orderByDate (msgs.filter (fun m => m.userId == userId))

/-- JS `Array.prototype.findIndex`: index of the first match, `-1` if none. -/
def findIndexJS (p : α → Bool) (l : List α) : Int :=
  match l.findIdx? p with
  | some i => (i : Int)
  | none => -1

/-- JS array subscripting `arr[i]` with a possibly out-of-range `Int`
index (`undefined` becomes `none`). -/
def jsGet (l : List α) (i : Int) : Option α :=
  if 0 ≤ i then l[i.toNat]? else none

/-- The `Message.previousPostedMessage` field resolver from `server.js`. -/
def previousPostedMessage (msgs : List Message) (m : Message) : Option Message :=
  let userMessages := userMessagesOrdered msgs m.userId
  let currentIndex := findIndexJS (fun msg => msg.id == m.id) userMessages
  if 0 < currentIndex then jsGet userMessages (currentIndex - 1) else none

/-- The `Message.nextPostedMessage` field resolver from `server.js`. -/
def nextPostedMessage (msgs : List Message) (m : Message) : Option Message :=
  let userMessages := userMessagesOrdered msgs m.userId
  let currentIndex := findIndexJS (fun msg => msg.id == m.id) userMessages
  if currentIndex < (userMessages.length : Int) - 1 then jsGet userMessages (currentIndex + 1)
  else none

/-- Arguments of one `postMessage` request: the uuid generated for the new
message, the message body, and the request's `Date.now()`. -/
structure PostCall where
  newId : String
  body : String
  now : Int
deriving Repr, DecidableEq

/-- The message row that a successful `postMessage` call inserts. -/
def mkMessage (userId : String) (c : PostCall) : Message :=
  { id := c.newId, userId := userId, body := c.body, creationDate := c.now }

/-- Run a sequence of `postMessage` requests for one user, threading the
server state (a failed request leaves the state as it was). -/
def runPosts (st : ServerState) (userId : String) :
    List PostCall → ServerState × List (Except String Message)
  | [] => (st, [])
  | c :: rest =>
    let r := postMessage st userId c.body c.newId c.now
    let rs := runPosts r.1 userId rest
    (rs.1, r.2 :: rs.2)

/-- Arguments of one `createUser` request. -/
structure CreateCall where
  name : String
  email : String
  newId : String
  now : Int
deriving Repr, DecidableEq

/-- The user row that a successful `createUser` call inserts. -/
def mkUser (c : CreateCall) : User :=
  { id := c.newId, name := c.name, email := c.email, creationDate := c.now }

/-- Run a sequence of `createUser` requests, threading the server state. -/
def runCreates (st : ServerState) :
    List CreateCall → ServerState × List (Except String User)
  | [] => (st, [])
  | c :: rest =>
    let r := createUser st c.name c.email c.newId c.now
    let rs := runCreates r.1 rest
    (rs.1, r.2 :: rs.2)

/-- The timestamp sequence the rate limiter sees for a user:
`rateLimitStore.get(userId) || []`. -/
def storedFor (st : ServerState) (u : String) : List Int :=
  (mapGet st.rateLimitStore u).getD []

theorem find?_replace_self (m : RateStore) (k : String) (v : List Int)
    (h : m.any (fun p => p.1 == k) = true) :
    (m.map (fun p => if p.1 == k then (k, v) else p)).find? (fun p => p.1 == k)
      = some (k, v) := by
  induction m with
  | nil => simp at h
  | cons p rest ih =>
    by_cases hp : p.1 = k
    · rw [List.map_cons, if_pos (beq_iff_eq.mpr hp), List.find?_cons_of_pos _ (by simp)]
    · have hp' : (p.1 == k) = false := by simp [hp]
      have h' : rest.any (fun p => p.1 == k) = true := by
        rw [List.any_cons, hp'] at h
        simpa using h
      rw [List.map_cons, if_neg (by simp [hp]), List.find?_cons_of_neg _ (by simp [hp]),
        ih h']

theorem find?_replace_ne (m : RateStore) (k k' : String) (v : List Int) (hne : k' ≠ k) :
    (m.map (fun p => if p.1 == k then (k, v) else p)).find? (fun p => p.1 == k')
      = m.find? (fun p => p.1 == k') := by
  induction m with
  | nil => rfl
  | cons p rest ih =>
    by_cases hp : p.1 = k
    · rw [List.map_cons, if_pos (beq_iff_eq.mpr hp),
        List.find?_cons_of_neg _ (by simp [Ne.symm hne]),
        List.find?_cons_of_neg _ (by simp [hp, Ne.symm hne]), ih]
    · rw [List.map_cons, if_neg (by simp [hp])]
      by_cases hq : p.1 = k'
      · rw [List.find?_cons_of_pos _ (by simp [hq]), List.find?_cons_of_pos _ (by simp [hq])]
      · rw [List.find?_cons_of_neg _ (by simp [hq]), List.find?_cons_of_neg _ (by simp [hq]),
          ih]

theorem mapGet_mapSet_self (m : RateStore) (k : String) (v : List Int) :
    mapGet (mapSet m k v) k = some v := by
  unfold mapGet mapSet
  by_cases h : m.any (fun p => p.1 == k)
  · rw [if_pos h, find?_replace_self m k v h]
    rfl
  · have hnone : m.find? (fun p => p.1 == k) = none := by
      rw [List.find?_eq_none]
      intro x hx hc
      exact h (List.any_eq_true.mpr ⟨x, hx, hc⟩)
    rw [if_neg h, List.find?_append, hnone, Option.none_or,
      List.find?_cons_of_pos _ (by simp)]
    rfl

theorem mapGet_mapSet_ne (m : RateStore) (k k' : String) (v : List Int) (hne : k' ≠ k) :
    mapGet (mapSet m k v) k' = mapGet m k' := by
  unfold mapGet mapSet
  by_cases h : m.any (fun p => p.1 == k)
  · rw [if_pos h, find?_replace_ne m k k' v hne]
  · rw [if_neg h, List.find?_append, List.find?_cons_of_neg _ (by simp [Ne.symm hne]),
      List.find?_nil, Option.or_none]

theorem postMessage_notFound (st : ServerState) (u body newId : String) (now : Int)
    (hu : ¬ st.db.users.any (fun usr => usr.id == u) = true) :
    postMessage st u body newId now = (st, .error "User not found. Cannot post message.") := by
  unfold postMessage
  rw [if_neg hu]

theorem postMessage_denied (st : ServerState) (u body newId : String) (now : Int)
    (hu : st.db.users.any (fun usr => usr.id == u) = true)
    (hge : 10 ≤ ((storedFor st u).filter
      (fun ts => decide (ts > now - 60 * 60 * 1000))).length) :
    postMessage st u body newId now =
      (st, .error "Rate limit exceeded. You can post a maximum of 10 messages per hour.") := by
  unfold storedFor at hge
  unfold postMessage
  rw [if_pos hu]
  dsimp only
  rw [if_pos hge]

theorem postMessage_ok (st : ServerState) (u body newId : String) (now : Int)
    (hu : st.db.users.any (fun usr => usr.id == u) = true)
    (hlt : ((storedFor st u).filter
      (fun ts => decide (ts > now - 60 * 60 * 1000))).length < 10) :
    postMessage st u body newId now =
      ({ db := { users := st.db.users,
                 messages := st.db.messages
                   ++ [{ id := newId, userId := u, body := body, creationDate := now }] },
         rateLimitStore := mapSet st.rateLimitStore u
           ((storedFor st u).filter (fun ts => decide (ts > now - 60 * 60 * 1000)) ++ [now]) },
       .ok { id := newId, userId := u, body := body, creationDate := now }) := by
  unfold storedFor at hlt ⊢
  unfold postMessage
  rw [if_pos hu]
  dsimp only
  rw [if_neg (by omega)]

/-- C1: inside `postMessage`, with the user present, the stored timestamp
sequence (empty if none) is filtered to timestamps strictly newer than one
hour before `now`; if at least 10 remain the post is denied with the
rate-limit error and the whole state — in particular the rate-limit store —
is left exactly unchanged; otherwise the post is allowed and the filtered
sequence with `now` appended is stored back under the user's id. -/
theorem claim_C1_rate_limit_check (st : ServerState) (u body newId : String) (now : Int)
    (hu : st.db.users.any (fun usr => usr.id == u) = true) :
    (10 ≤ ((storedFor st u).filter (fun ts => decide (ts > now - 60 * 60 * 1000))).length →
      postMessage st u body newId now =
        (st, .error "Rate limit exceeded. You can post a maximum of 10 messages per hour.")) ∧
    (((storedFor st u).filter (fun ts => decide (ts > now - 60 * 60 * 1000))).length < 10 →
      (postMessage st u body newId now).2 =
        .ok { id := newId, userId := u, body := body, creationDate := now } ∧
      mapGet (postMessage st u body newId now).1.rateLimitStore u =
        some ((storedFor st u).filter (fun ts => decide (ts > now - 60 * 60 * 1000)) ++ [now])) := by
  constructor
  · intro hge
    exact postMessage_denied st u body newId now hu hge
  · intro hlt
    rw [postMessage_ok st u body newId now hu hlt]
    exact ⟨rfl, mapGet_mapSet_self _ _ _⟩

/-- Demo fixtures: one user, empty tables/store; and a state whose
rate-limit store already holds ten recent timestamps for that user. -/
def aliceUser : User :=
  { id := "u1", name := "Alice", email := "alice@example.com", creationDate := 0 }

def demoState : ServerState :=
  { db := { users := [aliceUser], messages := [] }, rateLimitStore := [] }

def fullState : ServerState :=
  { db := { users := [aliceUser], messages := [] },
    rateLimitStore := [("u1", [1, 2, 3, 4, 5, 6, 7, 8, 9, 10])] }

/-- Witness for C1 at a concrete state: an allowed post for a user with an
empty stored sequence records exactly `[now]`. -/
theorem claim_C1_rate_limit_check_witness :
    (postMessage demoState "u1" "hello" "m1" 50).2 =
      .ok { id := "m1", userId := "u1", body := "hello", creationDate := 50 } ∧
    mapGet (postMessage demoState "u1" "hello" "m1" 50).1.rateLimitStore "u1" = some [50] := by
  have h := (claim_C1_rate_limit_check demoState "u1" "hello" "m1" 50 (by decide)).2 (by decide)
  refine ⟨h.1, ?_⟩
  rw [h.2]
  rfl

/-- C3: `postMessage` fails with the exact message
"User not found. Cannot post message." if and only if no user with the
given id exists; on that failure the returned state is the input state, so
neither table gains a row. -/
theorem claim_C3_post_user_not_found (st : ServerState) (u body newId : String) (now : Int) :
    ((postMessage st u body newId now).2 = .error "User not found. Cannot post message." ↔
      ¬ ∃ usr ∈ st.db.users, usr.id = u) ∧
    ((¬ ∃ usr ∈ st.db.users, usr.id = u) →
      postMessage st u body newId now = (st, .error "User not found. Cannot post message.")) := by
  by_cases h : ∃ usr ∈ st.db.users, usr.id = u
  · have hu : st.db.users.any (fun usr => usr.id == u) = true := by
      obtain ⟨usr, hmem, hid⟩ := h
      exact List.any_eq_true.mpr ⟨usr, hmem, beq_iff_eq.mpr hid⟩
    refine ⟨⟨fun hres => ?_, fun hc => absurd h hc⟩, fun hc => absurd h hc⟩
    by_cases hge : 10 ≤ ((storedFor st u).filter
        (fun ts => decide (ts > now - 60 * 60 * 1000))).length
    · rw [postMessage_denied st u body newId now hu hge] at hres
      simp only [Except.error.injEq] at hres
      exact absurd hres (by decide)
    · rw [postMessage_ok st u body newId now hu (by omega)] at hres
      simp at hres
  · have hu : ¬ st.db.users.any (fun usr => usr.id == u) = true := by
      intro hh
      obtain ⟨usr, hmem, hid⟩ := List.any_eq_true.mp hh
      exact h ⟨usr, hmem, beq_iff_eq.mp hid⟩
    have hres := postMessage_notFound st u body newId now hu
    exact ⟨⟨fun _ => h, fun _ => by rw [hres]⟩, fun _ => hres⟩

/-- Witness for C3 at a concrete state: posting for an id that is not in
the users table fails with the not-found message and changes nothing. -/
theorem claim_C3_post_user_not_found_witness :
    postMessage demoState "ghost" "hello" "m1" 50 =
      (demoState, .error "User not found. Cannot post message.") :=
  (claim_C3_post_user_not_found demoState "ghost" "hello" "m1" 50).2 (by decide)

/-- C5: `createUser` with an email already present fails with the exact
message "A user with this email already exists.", returns the state
unchanged, and in particular leaves the user count unchanged. -/
theorem claim_C5_duplicate_email (st : ServerState) (name email newId : String) (now : Int)
    (h : ∃ u ∈ st.db.users, u.email = email) :
    createUser st name email newId now = (st, .error "A user with this email already exists.") ∧
    (createUser st name email newId now).1.db.users.length = st.db.users.length := by
  have hb : st.db.users.any (fun u => u.email == email) = true := by
    obtain ⟨u, hmem, he⟩ := h
    exact List.any_eq_true.mpr ⟨u, hmem, beq_iff_eq.mpr he⟩
  have h1 : createUser st name email newId now =
      (st, .error "A user with this email already exists.") := by
    unfold createUser
    rw [if_pos hb]
  exact ⟨h1, by rw [h1]⟩

/-- Witness for C5 at a concrete state: re-using Alice's email fails and
keeps the single user row. -/
theorem claim_C5_duplicate_email_witness :
    createUser demoState "Bob" "alice@example.com" "u2" 7 =
      (demoState, .error "A user with this email already exists.") ∧
    (createUser demoState "Bob" "alice@example.com" "u2" 7).1.db.users.length =
      demoState.db.users.length :=
  claim_C5_duplicate_email demoState "Bob" "alice@example.com" "u2" 7
    ⟨aliceUser, by decide, by decide⟩

/-- C6: frame conditions of `postMessage`: on success the messages table
gains exactly the one new row, the users table is untouched, and no
rate-limit entry other than the posting user's changes; on any failure the
state is returned exactly as it was (no write at all). -/
theorem claim_C6_post_frame (st : ServerState) (u body newId : String) (now : Int) :
    (∀ stS m, postMessage st u body newId now = (stS, .ok m) →
      stS.db.messages = st.db.messages ++ [m] ∧
      stS.db.users = st.db.users ∧
      ∀ k, k ≠ u → mapGet stS.rateLimitStore k = mapGet st.rateLimitStore k) ∧
    (∀ stS e, postMessage st u body newId now = (stS, .error e) → stS = st) := by
  by_cases hu : st.db.users.any (fun usr => usr.id == u) = true
  · by_cases hge : 10 ≤ ((storedFor st u).filter
        (fun ts => decide (ts > now - 60 * 60 * 1000))).length
    · rw [postMessage_denied st u body newId now hu hge]
      constructor
      · intro stS m hres
        injection hres with h1 h2
        exact absurd h2 (by simp)
      · intro stS e hres
        injection hres with h1 h2
        exact h1.symm
    · rw [postMessage_ok st u body newId now hu (by omega)]
      constructor
      · intro stS m hres
        injection hres with h1 h2
        injection h2 with h2
        subst h1
        subst h2
        refine ⟨rfl, rfl, fun k hk => ?_⟩
        exact mapGet_mapSet_ne _ _ _ _ hk
      · intro stS e hres
        injection hres with h1 h2
        exact absurd h2 (by simp)
  · rw [postMessage_notFound st u body newId now hu]
    constructor
    · intro stS m hres
      injection hres with h1 h2
      exact absurd h2 (by simp)
    · intro stS e hres
      injection hres with h1 h2
      exact h1.symm

/-- Witness for C6 at a concrete state: a successful post appends exactly
one message row, and a denied post returns the state unchanged. -/
theorem claim_C6_post_frame_witness :
    (postMessage demoState "u1" "hello" "m1" 50).1.db.messages =
      demoState.db.messages
        ++ [{ id := "m1", userId := "u1", body := "hello", creationDate := 50 }] ∧
    (postMessage fullState "u1" "hello" "m1" 50).1 = fullState := by
  constructor
  · exact ((claim_C6_post_frame demoState "u1" "hello" "m1" 50).1
      { db := { users := [aliceUser],
                messages := [{ id := "m1", userId := "u1", body := "hello",
                               creationDate := 50 }] },
        rateLimitStore := [("u1", [50])] }
      { id := "m1", userId := "u1", body := "hello", creationDate := 50 } rfl).1
  · exact (claim_C6_post_frame fullState "u1" "hello" "m1" 50).2 fullState
      "Rate limit exceeded. You can post a maximum of 10 messages per hour." rfl

/-- C9: `postMessage` preserves the invariant that every sequence stored
in the rate-limit store has length at most 10, since a timestamp is
appended only when the window-filtered sequence has fewer than 10 elements
and the stored value is replaced by that filtered sequence plus the new
timestamp. -/
theorem claim_C9_store_bounded (st : ServerState) (u body newId : String) (now : Int)
    (hinv : ∀ k l, mapGet st.rateLimitStore k = some l → l.length ≤ 10) :
    ∀ k l, mapGet (postMessage st u body newId now).1.rateLimitStore k = some l →
      l.length ≤ 10 := by
  by_cases hu : st.db.users.any (fun usr => usr.id == u) = true
  · by_cases hge : 10 ≤ ((storedFor st u).filter
        (fun ts => decide (ts > now - 60 * 60 * 1000))).length
    · rw [postMessage_denied st u body newId now hu hge]
      exact hinv
    · rw [postMessage_ok st u body newId now hu (by omega)]
      intro k l hk
      by_cases hku : k = u
      · subst hku
        rw [mapGet_mapSet_self] at hk
        injection hk with hk
        subst hk
        rw [List.length_append]
        simp only [List.length_cons, List.length_nil]
        omega
      · rw [mapGet_mapSet_ne _ _ _ _ hku] at hk
        exact hinv k l hk
  · rw [postMessage_notFound st u body newId now hu]
    exact hinv

/-- Witness for C9 at a concrete state: after one post from the empty
store, the sequence stored for the posting user has length at most 10. -/
theorem claim_C9_store_bounded_witness : ([50] : List Int).length ≤ 10 :=
  claim_C9_store_bounded demoState "u1" "hello" "m1" 50
    (by intro k l h; simp [demoState, mapGet] at h) "u1" [50] rfl

theorem length_insertByDate (m : Message) (l : List Message) :
    (insertByDate m l).length = l.length + 1 := by
  induction l with
  | nil => rfl
  | cons x xs ih =>
    unfold insertByDate
    by_cases h : m.creationDate ≤ x.creationDate
    · rw [if_pos h]
      rfl
    · rw [if_neg h]
      simp [ih]

theorem mem_insertByDate (a m : Message) (l : List Message) :
    a ∈ insertByDate m l ↔ a = m ∨ a ∈ l := by
  induction l with
  | nil => simp [insertByDate]
  | cons x xs ih =>
    unfold insertByDate
    by_cases h : m.creationDate ≤ x.creationDate
    · rw [if_pos h]
      simp
    · rw [if_neg h]
      simp [ih]
      tauto

theorem length_orderByDate (l : List Message) : (orderByDate l).length = l.length := by
  induction l with
  | nil => rfl
  | cons x xs ih =>
    unfold orderByDate
    rw [length_insertByDate, ih]
    rfl

theorem mem_orderByDate (a : Message) (l : List Message) :
    a ∈ orderByDate l ↔ a ∈ l := by
  induction l with
  | nil => simp [orderByDate]
  | cons x xs ih =>
    unfold orderByDate
    rw [mem_insertByDate]
    simp [ih]

theorem findIdx?_decomp {α : Type} (p : α → Bool) (pre post : List α) (a : α)
    (ha : p a = true) (hpre : ∀ x ∈ pre, p x = false) :
    List.findIdx? p (pre ++ a :: post) = some pre.length := by
  rw [List.findIdx?_append, List.findIdx?_eq_none_iff.mpr hpre, Option.none_or,
    List.findIdx?_cons, if_pos ha]
  simp

/-- C4: for a message `m` appearing in its owning user's list ordered by
creation date ascending — written as `pre ++ m' :: post` with `m'` the
first element carrying `m`'s id — `previousPostedMessage` resolves to the
last element of `pre` (absent when `pre` is empty, so when `m` is first)
and `nextPostedMessage` to the first element of `post` (absent when `post`
is empty, so when `m` is last); when `m` is the only message both `pre`
and `post` are empty and both resolvers return absent. -/
theorem claim_C4_prev_next (msgs : List Message) (m m' : Message) (pre post : List Message)
    (hdec : userMessagesOrdered msgs m.userId = pre ++ m' :: post)
    (hid : m'.id = m.id)
    (hpre : ∀ x ∈ pre, x.id ≠ m.id) :
    previousPostedMessage msgs m = pre.getLast? ∧
    nextPostedMessage msgs m = post.head? := by
  have hfind : List.findIdx? (fun msg => msg.id == m.id) (userMessagesOrdered msgs m.userId)
      = some pre.length := by
    rw [hdec]
    exact findIdx?_decomp _ pre post m' (beq_iff_eq.mpr hid)
      (fun x hx => by simp [hpre x hx])
  have hidx : findIndexJS (fun msg => msg.id == m.id) (userMessagesOrdered msgs m.userId)
      = (pre.length : Int) := by
    unfold findIndexJS
    rw [hfind]
  have hlen : (userMessagesOrdered msgs m.userId).length = pre.length + post.length + 1 := by
    rw [hdec]
    simp [List.length_append]
    omega
  constructor
  · unfold previousPostedMessage
    dsimp only
    rw [hidx]
    by_cases hp : pre = []
    · subst hp
      rw [if_neg (by decide)]
      rfl
    · have hplen : 0 < pre.length := List.length_pos.mpr hp
      rw [if_pos (by exact_mod_cast hplen)]
      unfold jsGet
      rw [if_pos (by omega)]
      have ht : ((pre.length : Int) - 1).toNat = pre.length - 1 := by omega
      rw [ht, hdec, List.getElem?_append, if_pos (by omega), List.getLast?_eq_getElem?]
  · unfold nextPostedMessage
    dsimp only
    rw [hidx]
    by_cases hp : post = []
    · subst hp
      rw [if_neg (by rw [hlen]; simp only [List.length_nil]; push_cast; omega)]
      rfl
    · have hplen : 0 < post.length := List.length_pos.mpr hp
      rw [if_pos (by rw [hlen]; push_cast; omega)]
      unfold jsGet
      rw [if_pos (by omega)]
      have ht : ((pre.length : Int) + 1).toNat = pre.length + 1 := by omega
      rw [ht, hdec, List.getElem?_append, if_neg (by omega)]
      have ht2 : pre.length + 1 - pre.length = 1 := by omega
      rw [ht2, List.getElem?_cons_succ, List.head?_eq_getElem?]

/-- Demo messages for the resolver claims: three posts by the demo user
with ascending creation dates. -/
def msgOne : Message := { id := "m1", userId := "u1", body := "Message 1", creationDate := 1 }

def msgTwo : Message := { id := "m2", userId := "u1", body := "Message 2", creationDate := 2 }

def msgThree : Message := { id := "m3", userId := "u1", body := "Message 3", creationDate := 3 }

/-- Witness for C4 at a concrete list: the middle of three messages has
the first as previous and the third as next. -/
theorem claim_C4_prev_next_witness :
    previousPostedMessage [msgOne, msgTwo, msgThree] msgTwo = [msgOne].getLast? ∧
    nextPostedMessage [msgOne, msgTwo, msgThree] msgTwo = [msgThree].head? :=
  claim_C4_prev_next [msgOne, msgTwo, msgThree] msgTwo msgTwo [msgOne] [msgThree]
    (by decide) rfl (by decide)

/-- C10: for a message whose id does not occur among its owning user's
messages, when that list is non-empty, `nextPostedMessage` returns the
first message of the date-ordered list (the not-found index `-1` passes
the not-last test) while `previousPostedMessage` returns absent — the two
resolvers are asymmetric on an unknown identifier. -/
theorem claim_C10_unknown_id (msgs : List Message) (m : Message)
    (habs : ∀ x ∈ msgs.filter (fun x => x.userId == m.userId), x.id ≠ m.id)
    (hne : msgs.filter (fun x => x.userId == m.userId) ≠ []) :
    nextPostedMessage msgs m = (userMessagesOrdered msgs m.userId).head? ∧
    previousPostedMessage msgs m = none := by
  have habs' : ∀ x ∈ userMessagesOrdered msgs m.userId, x.id ≠ m.id := by
    intro x hx
    exact habs x ((mem_orderByDate x _).mp hx)
  have hfind : List.findIdx? (fun msg => msg.id == m.id)
      (userMessagesOrdered msgs m.userId) = none :=
    List.findIdx?_eq_none_iff.mpr (fun x hx => by simp [habs' x hx])
  have hidx : findIndexJS (fun msg => msg.id == m.id) (userMessagesOrdered msgs m.userId)
      = -1 := by
    unfold findIndexJS
    rw [hfind]
  have hlen : 0 < (userMessagesOrdered msgs m.userId).length := by
    unfold userMessagesOrdered
    rw [length_orderByDate]
    exact List.length_pos.mpr hne
  constructor
  · unfold nextPostedMessage
    dsimp only
    rw [hidx, if_pos (by omega)]
    unfold jsGet
    rw [if_pos (by omega)]
    rw [List.head?_eq_getElem?]
    norm_num
  · unfold previousPostedMessage
    dsimp only
    rw [hidx, if_neg (by decide)]

/-- Witness for C10 at a concrete list: a message with an unknown id but
the demo user's id gets the first stored message as next and no
previous. -/
theorem claim_C10_unknown_id_witness :
    nextPostedMessage [msgOne, msgTwo]
        { id := "zz", userId := "u1", body := "?", creationDate := 9 }
      = (userMessagesOrdered [msgOne, msgTwo] "u1").head? ∧
    previousPostedMessage [msgOne, msgTwo]
        { id := "zz", userId := "u1", body := "?", creationDate := 9 }
      = none :=
  claim_C10_unknown_id [msgOne, msgTwo]
    { id := "zz", userId := "u1", body := "?", creationDate := 9 }
    (by decide) (by decide)

/-- C8: `listMessagesForUser` fails with the not-found error when no user
with the given id exists, and otherwise returns exactly that user's
message rows. -/
theorem claim_C8_list_messages (st : ServerState) (u : String) :
    ((¬ ∃ usr ∈ st.db.users, usr.id = u) →
      listMessagesForUser st u = .error "User not found.") ∧
    ((∃ usr ∈ st.db.users, usr.id = u) →
      listMessagesForUser st u = .ok (st.db.messages.filter (fun m => m.userId == u))) := by
  constructor
  · intro h
    have hu : ¬ st.db.users.any (fun usr => usr.id == u) = true := by
      intro hh
      obtain ⟨usr, hmem, hid⟩ := List.any_eq_true.mp hh
      exact h ⟨usr, hmem, beq_iff_eq.mp hid⟩
    unfold listMessagesForUser
    rw [if_neg hu]
  · intro h
    obtain ⟨usr, hmem, hid⟩ := h
    have hu : st.db.users.any (fun usr => usr.id == u) = true :=
      List.any_eq_true.mpr ⟨usr, hmem, beq_iff_eq.mpr hid⟩
    unfold listMessagesForUser
    rw [if_pos hu]

/-- Witness for C8 at a concrete state: an unknown id fails, Alice's id
returns her (empty) message list. -/
theorem claim_C8_list_messages_witness :
    listMessagesForUser demoState "ghost" = .error "User not found." ∧
    listMessagesForUser demoState "u1" = .ok [] := by
  constructor
  · exact (claim_C8_list_messages demoState "ghost").1 (by decide)
  · have h := (claim_C8_list_messages demoState "u1").2 ⟨aliceUser, by decide, by decide⟩
    rw [h]
    rfl

theorem runCreates_all_ok :
    ∀ (calls : List CreateCall) (st : ServerState),
      (∀ c ∈ calls, ∀ u ∈ st.db.users, u.email ≠ c.email) →
      (calls.map (fun c => c.email)).Nodup →
      (runCreates st calls).2 = calls.map (fun c => Except.ok (mkUser c)) ∧
      (runCreates st calls).1.db.users = st.db.users ++ calls.map mkUser ∧
      (runCreates st calls).1.db.messages = st.db.messages ∧
      (runCreates st calls).1.rateLimitStore = st.rateLimitStore := by
  intro calls
  induction calls with
  | nil =>
    intro st _ _
    simp [runCreates]
  | cons c rest ih =>
    intro st hfresh hnd
    have hb : ¬ st.db.users.any (fun u => u.email == c.email) = true := by
      intro hh
      obtain ⟨u, hmem, he⟩ := List.any_eq_true.mp hh
      exact hfresh c (by simp) u hmem (beq_iff_eq.mp he)
    have hcreate : createUser st c.name c.email c.newId c.now =
        ({ st with db := { st.db with users := st.db.users ++ [mkUser c] } },
         .ok (mkUser c)) := by
      unfold createUser
      rw [if_neg hb]
      rfl
    rw [List.map_cons] at hnd
    have hnd2 := List.nodup_cons.mp hnd
    have hfresh' : ∀ c' ∈ rest, ∀ u ∈ st.db.users ++ [mkUser c], u.email ≠ c'.email := by
      intro c' hc' u hu
      rcases List.mem_append.mp hu with hold | hnew
      · exact hfresh c' (by simp [hc']) u hold
      · have hu' : u = mkUser c := by simpa using hnew
        subst hu'
        intro he
        have hmem : c.email ∈ rest.map (fun c => c.email) :=
          List.mem_map.mpr ⟨c', hc', he.symm⟩
        exact hnd2.1 hmem
    have hnd' : (rest.map (fun c => c.email)).Nodup := hnd2.2
    have h := ih ({ st with db := { st.db with users := st.db.users ++ [mkUser c] } })
      hfresh' hnd'
    unfold runCreates
    rw [hcreate]
    dsimp only
    refine ⟨by rw [h.1]; rfl, ?_, h.2.2.1, h.2.2.2⟩
    rw [h.2.1]
    simp

/-- C7: starting from a fresh server, creating any batch of users with
pairwise distinct emails succeeds on every call, and `listUsers`
afterwards returns exactly those users, in creation order. -/
theorem claim_C7_list_users (calls : List CreateCall)
    (hnd : (calls.map (fun c => c.email)).Nodup) :
    listUsers (runCreates initialState calls).1 = calls.map mkUser ∧
    (runCreates initialState calls).2 = calls.map (fun c => Except.ok (mkUser c)) := by
  have h := runCreates_all_ok calls initialState
    (by intro c hc u hu; simp [initialState] at hu) hnd
  refine ⟨?_, h.1⟩
  unfold listUsers
  rw [h.2.1]
  simp [initialState]

/-- The two concrete creations used to witness C7. -/
def createOne : CreateCall :=
  { name := "User One", email := "one@example.com", newId := "u1", now := 1 }

def createTwo : CreateCall :=
  { name := "User Two", email := "two@example.com", newId := "u2", now := 2 }

/-- Witness for C7 at two concrete creations with distinct emails. -/
theorem claim_C7_list_users_witness :
    listUsers (runCreates initialState [createOne, createTwo]).1 =
      [mkUser createOne, mkUser createTwo] ∧
    (runCreates initialState [createOne, createTwo]).2 =
      [Except.ok (mkUser createOne), Except.ok (mkUser createTwo)] :=
  claim_C7_list_users [createOne, createTwo] (by decide)

theorem runPosts_append (userId : String) (a b : List PostCall) :
    ∀ st : ServerState, runPosts st userId (a ++ b) =
      ((runPosts (runPosts st userId a).1 userId b).1,
       (runPosts st userId a).2 ++ (runPosts (runPosts st userId a).1 userId b).2) := by
  induction a with
  | nil =>
    intro st
    simp [runPosts]
  | cons c rest ih =>
    intro st
    simp only [List.cons_append, runPosts, List.append_eq]
    rw [ih]

theorem runPosts_all_ok (userId : String) (lo : Int) :
    ∀ (calls : List PostCall) (st : ServerState),
      st.db.users.any (fun usr => usr.id == userId) = true →
      (∀ t ∈ storedFor st userId, lo ≤ t ∧ t < lo + 60 * 60 * 1000) →
      (∀ c ∈ calls, lo ≤ c.now ∧ c.now < lo + 60 * 60 * 1000) →
      (storedFor st userId).length + calls.length ≤ 10 →
      (runPosts st userId calls).2 = calls.map (fun c => Except.ok (mkMessage userId c)) ∧
      (runPosts st userId calls).1.db.users = st.db.users ∧
      (runPosts st userId calls).1.db.messages
          = st.db.messages ++ calls.map (mkMessage userId) ∧
      storedFor (runPosts st userId calls).1 userId
          = storedFor st userId ++ calls.map (fun c => c.now) := by
  intro calls
  induction calls with
  | nil =>
    intro st hu hacc hcalls hlen
    simp [runPosts]
  | cons c rest ih =>
    intro st hu hacc hcalls hlen
    have hwin : ∀ t ∈ storedFor st userId, t > c.now - 60 * 60 * 1000 := by
      intro t ht
      have h1 := hacc t ht
      have h2 := hcalls c (by simp)
      omega
    have hfilt : (storedFor st userId).filter (fun ts => decide (ts > c.now - 60 * 60 * 1000))
        = storedFor st userId :=
      List.filter_eq_self.mpr (fun t ht => by
        have h := hwin t ht
        simp only [decide_eq_true_eq]
        omega)
    have hflen : ((storedFor st userId).filter
        (fun ts => decide (ts > c.now - 60 * 60 * 1000))).length < 10 := by
      rw [hfilt]
      simp only [List.length_cons] at hlen
      omega
    have hpost := postMessage_ok st userId c.body c.newId c.now hu hflen
    have hr1users : (postMessage st userId c.body c.newId c.now).1.db.users
        = st.db.users := by
      rw [hpost]
    have hr1msgs : (postMessage st userId c.body c.newId c.now).1.db.messages
        = st.db.messages ++ [mkMessage userId c] := by
      rw [hpost]
      rfl
    have hr2 : (postMessage st userId c.body c.newId c.now).2
        = Except.ok (mkMessage userId c) := by
      rw [hpost]
      rfl
    have hr1stored : storedFor (postMessage st userId c.body c.newId c.now).1 userId
        = storedFor st userId ++ [c.now] := by
      rw [hpost]
      unfold storedFor
      dsimp only
      rw [mapGet_mapSet_self, Option.getD_some]
      exact congrArg (fun l => l ++ [c.now]) hfilt
    have hih := ih (postMessage st userId c.body c.newId c.now).1
      (by rw [hr1users]; exact hu)
      (by
        rw [hr1stored]
        intro t ht
        rcases List.mem_append.mp ht with hold | hnew
        · exact hacc t hold
        · have ht' : t = c.now := by simpa using hnew
          subst ht'
          exact hcalls c (by simp))
      (fun c' hc' => hcalls c' (by simp [hc']))
      (by
        rw [hr1stored]
        simp only [List.length_append, List.length_cons, List.length_nil] at *
        omega)
    unfold runPosts
    dsimp only
    refine ⟨?_, ?_, ?_, ?_⟩
    · rw [hr2, hih.1]
      rfl
    · rw [hih.2.1, hr1users]
    · rw [hih.2.2.1, hr1msgs, List.append_assoc]
      rfl
    · rw [hih.2.2.2, hr1stored, List.append_assoc]
      rfl

/-- C2: for any existing user with no recorded posts, a batch of 10
`postMessage` calls whose times all fall inside a common hour-long window
all succeed, and an 11th call inside the same window fails with the exact
rate-limit message, leaves the state exactly as after the 10th call, and
hence changes nothing in later `listMessagesForUser` results. -/
theorem claim_C2_eleventh_denied (st : ServerState) (u : String) (lo : Int)
    (calls10 : List PostCall) (c11 : PostCall)
    (hu : st.db.users.any (fun usr => usr.id == u) = true)
    (hstore : mapGet st.rateLimitStore u = none)
    (hlen10 : calls10.length = 10)
    (hin : ∀ c ∈ calls10 ++ [c11], lo ≤ c.now ∧ c.now < lo + 60 * 60 * 1000) :
    (runPosts st u (calls10 ++ [c11])).2
        = calls10.map (fun c => Except.ok (mkMessage u c))
          ++ [Except.error
                "Rate limit exceeded. You can post a maximum of 10 messages per hour."] ∧
    (runPosts st u (calls10 ++ [c11])).1 = (runPosts st u calls10).1 ∧
    listMessagesForUser (runPosts st u (calls10 ++ [c11])).1 u
        = listMessagesForUser (runPosts st u calls10).1 u := by
  have hsf0 : storedFor st u = [] := by
    unfold storedFor
    rw [hstore]
    rfl
  have h10 := runPosts_all_ok u lo calls10 st hu
    (by rw [hsf0]; intro t ht; simp at ht)
    (fun c hc => hin c (List.mem_append.mpr (Or.inl hc)))
    (by rw [hsf0]; simp [hlen10])
  have hu10 : (runPosts st u calls10).1.db.users.any (fun usr => usr.id == u) = true := by
    rw [h10.2.1]
    exact hu
  have hsf10 : storedFor (runPosts st u calls10).1 u = calls10.map (fun c => c.now) := by
    rw [h10.2.2.2, hsf0]
    rfl
  have hwin : ∀ t ∈ storedFor (runPosts st u calls10).1 u,
      t > c11.now - 60 * 60 * 1000 := by
    rw [hsf10]
    intro t ht
    obtain ⟨c, hc, hce⟩ := List.mem_map.mp ht
    have h1 := hin c (List.mem_append.mpr (Or.inl hc))
    have h2 := hin c11 (List.mem_append.mpr (Or.inr (by simp)))
    omega
  have hge : 10 ≤ ((storedFor (runPosts st u calls10).1 u).filter
      (fun ts => decide (ts > c11.now - 60 * 60 * 1000))).length := by
    rw [List.filter_eq_self.mpr (fun t ht => by
        have h := hwin t ht
        simp only [decide_eq_true_eq]
        omega),
      hsf10]
    simp [hlen10]
  have hdenied := postMessage_denied (runPosts st u calls10).1 u c11.body c11.newId c11.now
    hu10 hge
  have hrun1 : runPosts (runPosts st u calls10).1 u [c11]
      = ((runPosts st u calls10).1,
         [Except.error
            "Rate limit exceeded. You can post a maximum of 10 messages per hour."]) := by
    simp only [runPosts]
    rw [hdenied]
  rw [runPosts_append u calls10 [c11] st, hrun1]
  exact ⟨by rw [h10.1], rfl, rfl⟩

/-- The concrete calls used to witness C2: ten posts at instants 0..9 and
an eleventh at instant 10, all inside one hour. -/
def spamCalls : List PostCall :=
  (List.range 10).map (fun i => { newId := toString i, body := "Spam", now := (i : Int) })

def spamEleventh : PostCall := { newId := "m10", body := "Spam", now := 10 }

/-- Witness for C2 at the concrete eleven-call scenario. -/
theorem claim_C2_eleventh_denied_witness :
    (runPosts demoState "u1" (spamCalls ++ [spamEleventh])).2
        = spamCalls.map (fun c => Except.ok (mkMessage "u1" c))
          ++ [Except.error
                "Rate limit exceeded. You can post a maximum of 10 messages per hour."] ∧
    (runPosts demoState "u1" (spamCalls ++ [spamEleventh])).1
        = (runPosts demoState "u1" spamCalls).1 ∧
    listMessagesForUser (runPosts demoState "u1" (spamCalls ++ [spamEleventh])).1 "u1"
        = listMessagesForUser (runPosts demoState "u1" spamCalls).1 "u1" :=
  claim_C2_eleventh_denied demoState "u1" 0 spamCalls spamEleventh
    (by decide) rfl (by decide) (by decide)
